import Mathlib

/-!
Verification development for the openssf-scorecard-exporter repository.

The Go sources are embedded shallowly:
* durations and absolute times are modeled in whole seconds (Int);
  the Go zero value of time.Time is modeled as Option.none;
* float64 score values are carried opaquely (the code only stores and
  republishes them), so they are modeled as exact Int numerals;
* a Go error value is a GoError: either the typed *vcs.RateLimitError,
  a plain message error, or a wrapping error (fmt.Errorf with %w);
  a nullable error is Option GoError;
* an HTTP response is a record of status code, body, headers and the
  result of JSON-decoding the body (none = decode failure);
* the Prometheus gauge vectors of the metrics Collector are modeled as
  association lists from label-value tuples to the last written value.
-/

/- ---------- string primitives (strings.ToLower / strings.Contains / strconv.Atoi) ---------- -/

/-- Model of strings.ToLower (character-wise lowering, as Go does for ASCII). -/
def lowerStr (s : String) : String := String.mk (s.data.map Char.toLower)

/-- Helper for substring search: does pat occur as a contiguous run in l? -/
def infixOf (pat : List Char) : List Char → Bool
  | [] => pat.isPrefixOf []
  | c :: cs => pat.isPrefixOf (c :: cs) || infixOf pat cs

/-- Model of strings.Contains s pat. -/
def strContains (s pat : String) : Bool := infixOf pat.data s.data

/-- Digit accumulator for the Atoi model. -/
def parseDigits : List Char → Nat → Option Nat
  | [], acc => some acc
  | c :: cs, acc => if c.isDigit then parseDigits cs (acc * 10 + (c.toNat - 48)) else none

/-- Model of strconv.Atoi / strconv.ParseInt (base 10): some n on an all-digit
string (with optional leading minus), none otherwise. -/
def atoi? (s : String) : Option Int :=
  match s.data with
  | [] => none
  | '-' :: cs =>
    match cs with
    | [] => none
    | _ => (parseDigits cs 0).map (fun n => -(n : Int))
  | cs => (parseDigits cs 0).map (fun n => (n : Int))

/- ---------- internal/vcs/errors.go ---------- -/

/-- The typed rate-limit error (errors.go lines 27-45).  RetryAfter is a
duration in seconds, 0 meaning unset (the Go zero value); ResetTime none
models the zero time.Time (IsZero). -/
structure RateLimitError where
  provider : String
  message : String
  retryAfter : Int := 0
  limit : Int := 0
  remaining : Int := 0
  resetTime : Option Int := none
deriving DecidableEq

/-- A Go error value: the typed rate-limit error, a plain message error
(errors.New / fmt.Errorf without %w), or a wrapping error (fmt.Errorf
with a %w verb at the end). -/
inductive GoError where
  | rateLimit (e : RateLimitError)
  | plain (msg : String)
  | wrap (outer : String) (inner : GoError)
deriving DecidableEq

/-- Error rendering of RateLimitError (errors.go lines 48-58).  The %v
formatting of durations and times is simplified to decimal seconds; no
claim depends on the exact rendering of those two suffixes. -/
def RateLimitError.errorString (e : RateLimitError) : String :=
  if e.retryAfter > 0 then
    e.provider ++ " API rate limit exceeded: " ++ e.message
      ++ " (retry after " ++ toString e.retryAfter ++ "s)"
  else
    match e.resetTime with
    | some t =>
      e.provider ++ " API rate limit exceeded: " ++ e.message
        ++ " (resets at " ++ toString t ++ ")"
    | none => e.provider ++ " API rate limit exceeded: " ++ e.message

/-- The Error() string of a GoError; a wrapping error renders as
"outer: inner" as fmt.Errorf("...: %w", err) does. -/
def GoError.errMsg : GoError → String
  | .rateLimit e => e.errorString
  | .plain msg => msg
  | .wrap outer inner => outer ++ ": " ++ inner.errMsg

/-- Model of errors.As(err, &rateLimitErr): the first typed RateLimitError
in the wrapping chain, if any. -/
def asRateLimitError : GoError → Option RateLimitError
  | .rateLimit e => some e
  | .plain _ => none
  | .wrap _ inner => asRateLimitError inner

/-- The message substrings treated as rate-limit indicators
(errors.go lines 74-82). -/
def rateLimitIndicators : List String :=
  ["rate limit", "rate-limit", "ratelimit", "too many requests", "429",
   "quota exceeded", "api rate limit exceeded"]

/-- IsRateLimitError (errors.go lines 61-91). -/
def IsRateLimitError : Option GoError → Bool
  | none => false
  | some err =>
    match asRateLimitError err with
    | some _ => true
    | none =>
      rateLimitIndicators.any (fun ind => strContains (lowerStr err.errMsg) ind)

/-- The default retry delay, 5 * time.Minute, in seconds. -/
def fiveMinutes : Int := 300

/-- GetRetryAfter (errors.go lines 95-115); now is the current time in
Unix seconds, so time.Until(resetTime) is resetTime - now. -/
def GetRetryAfter (now : Int) : Option GoError → Int
  | none => 0
  | some err =>
    match asRateLimitError err with
    | some rle =>
      if rle.retryAfter > 0 then rle.retryAfter
      else
        match rle.resetTime with
        | some reset => if reset - now > 0 then reset - now else fiveMinutes
        | none => fiveMinutes
    | none => fiveMinutes

/-- NewRateLimitError (errors.go lines 118-123). -/
def NewRateLimitError (provider message : String) : RateLimitError :=
  { provider := provider, message := message }

/-- WithRetryAfter (errors.go lines 126-129). -/
def RateLimitError.WithRetryAfter (e : RateLimitError) (d : Int) : RateLimitError :=
  { e with retryAfter := d }

/-- WithResetTime (errors.go lines 132-135); takes the time.Time value,
so an Option Int here (none = zero time). -/
def RateLimitError.WithResetTime (e : RateLimitError) (t : Option Int) : RateLimitError :=
  { e with resetTime := t }

/-- WithRateLimitInfo (errors.go lines 138-142). -/
def RateLimitError.WithRateLimitInfo (e : RateLimitError) (l r : Int) : RateLimitError :=
  { e with limit := l, remaining := r }

/- ---------- internal/vcs data model (part_000) and the direct-HTTP GitHub provider ---------- -/

/-- A GitHub repository as decoded from the list/get JSON payloads
(gitHubRepository struct in the direct-HTTP provider). -/
structure GitHubRepo where
  Name : String
  FullName : String
  HTMLURL : String
  Private : Bool
  Fork : Bool
  Archived : Bool
  Disabled : Bool
  DefaultBranch : String
deriving DecidableEq

/-- The generic Repository type (part_000 lines 39-63). -/
structure Repository where
  Name : String
  FullName : String
  URL : String
  DefaultBranch : String
  IsPrivate : Bool
  IsArchived : Bool
  IsFork : Bool
  IsDisabled : Bool
deriving DecidableEq

/-- An HTTP response to a repository-page request: status, raw body,
headers, and the JSON decode of the body (none = decode failure). -/
structure PageResponse where
  statusCode : Nat
  body : String
  headers : List (String × String)
  decoded : Option (List GitHubRepo)
deriving DecidableEq

/-- Model of http.Header.Get: the header value, or the empty string when
the header is absent. -/
def headerGet (headers : List (String × String)) (name : String) : String :=
  match headers.lookup name with
  | some v => v
  | none => ""

/-- Go's pattern remaining, _ := strconv.Atoi(s): 0 when parsing fails. -/
def atoiOrZero (s : String) : Int := (atoi? s).getD 0

/-- Construction of the rate-limit error from a 403/429 page response
(fetchRepositoryPage, header-extraction part). -/
def buildRateLimitError (resp : PageResponse) : RateLimitError :=
  let e := NewRateLimitError "github" resp.body
  let e :=
    let limitStr := headerGet resp.headers "X-RateLimit-Limit"
    if limitStr = "" then e
    else
      match atoi? limitStr with
      | some l => e.WithRateLimitInfo l (atoiOrZero (headerGet resp.headers "X-RateLimit-Remaining"))
      | none => e
  let e :=
    let resetStr := headerGet resp.headers "X-RateLimit-Reset"
    if resetStr = "" then e
    else
      match atoi? resetStr with
      | some t => e.WithResetTime (some t)
      | none => e
  let e :=
    let raStr := headerGet resp.headers "Retry-After"
    if raStr = "" then e
    else
      match atoi? raStr with
      | some sec => e.WithRetryAfter sec
      | none => e
  e

/-- fetchRepositoryPage of the direct-HTTP GitHub provider, as a function
of the received response.  403/429 yield the typed rate-limit error built
from the headers; any other non-200 status yields a plain status error. -/
def fetchRepositoryPage (resp : PageResponse) : Except GoError (List GitHubRepo) :=
  if resp.statusCode = 403 ∨ resp.statusCode = 429 then
    .error (.rateLimit (buildRateLimitError resp))
  else if resp.statusCode ≠ 200 then
    .error (.plain ("GitHub API returned status " ++ toString resp.statusCode ++ ": " ++ resp.body))
  else
    match resp.decoded with
    | some repos => .ok repos
    | none => .error (.plain "failed to decode response")

/-- shouldIncludeRepository of the direct-HTTP provider. -/
def shouldIncludeRepository (repo : GitHubRepo) : Bool :=
  !repo.Private && !repo.Archived && !repo.Disabled && !repo.Fork

/-- The page loop of GetRepositories (direct-HTTP provider).  fetchPage
abstracts the URL construction plus HTTP round trip for a page number;
perPage is 100.  The Go loop has no bound, so fuel bounds the recursion;
all statements about the loop hold for every sufficiently large fuel. -/
def getRepositoriesLoop (fetchPage : Nat → Except GoError (List GitHubRepo)) (perPage : Nat) :
    Nat → Nat → List String → Except GoError (List String)
  | 0, _, _ => .error (.plain "page loop fuel exhausted")
  | fuel + 1, page, acc =>
    match fetchPage page with
    | .error e => .error e
    | .ok repos =>
      if repos.length = 0 then .ok acc
      else
        let acc2 := acc ++ (repos.filter shouldIncludeRepository).map GitHubRepo.Name
        if repos.length < perPage then .ok acc2
        else getRepositoriesLoop fetchPage perPage fuel (page + 1) acc2

/-- GetRepositories of the direct-HTTP provider: pages of size 100
starting at page 1. -/
def GetRepositories (fetchPage : Nat → Except GoError (List GitHubRepo)) (fuel : Nat) :
    Except GoError (List String) :=
  getRepositoriesLoop fetchPage 100 fuel 1 []

/-- An HTTP response to the single-repository request. -/
structure RepoResponse where
  statusCode : Nat
  body : String
  decoded : Option GitHubRepo
deriving DecidableEq

/-- convertToRepository of the direct-HTTP provider. -/
def convertToRepository (gh : GitHubRepo) : Repository :=
  { Name := gh.Name
    FullName := gh.FullName
    URL := gh.HTMLURL
    DefaultBranch := gh.DefaultBranch
    IsPrivate := gh.Private
    IsArchived := gh.Archived
    IsFork := gh.Fork
    IsDisabled := gh.Disabled }

/-- GetRepositoryDetails of the direct-HTTP provider, as a function of the
received response.  Note that, unlike fetchRepositoryPage, it has no
special handling for 403/429: every non-200 status becomes a plain error. -/
def GetRepositoryDetails (resp : RepoResponse) : Except GoError Repository :=
  if resp.statusCode ≠ 200 then
    .error (.plain ("GitHub API returned status " ++ toString resp.statusCode ++ ": " ++ resp.body))
  else
    match resp.decoded with
    | some gh => .ok (convertToRepository gh)
    | none => .error (.plain "failed to decode response")

/- ---------- internal/vcs/github.go (go-github typed-client variant) ---------- -/

/-- Errors surfaced by the go-github client library: the typed primary
rate-limit error (carrying Rate.Limit / Rate.Remaining / Rate.Reset), the
typed secondary (abuse) rate-limit error with an optional RetryAfter, or
any other error. -/
inductive GitHubLibError where
  | rateLimitErr (msg : String) (limit remaining : Int) (reset : Option Int)
  | abuseRateLimitErr (msg : String) (retryAfter : Option Int)
  | other (msg : String)
deriving DecidableEq

/-- handleError (github.go lines 127-150): maps library rate-limit errors
to the internal typed RateLimitError and passes everything else through. -/
def handleError : Option GitHubLibError → Option GoError
  | none => none
  | some (.rateLimitErr msg l r reset) =>
    some (.rateLimit (((NewRateLimitError "github" msg).WithRateLimitInfo l r).WithResetTime reset))
  | some (.abuseRateLimitErr msg retryAfter) =>
    some (.rateLimit
      (match retryAfter with
       | some d => (NewRateLimitError "github" msg).WithRetryAfter d
       | none => NewRateLimitError "github" msg))
  | some (.other msg) => some (.plain msg)

/- ---------- internal/scorecard/client.go ---------- -/

/-- One element of the checks array of the scorecard API JSON envelope. -/
structure ApiCheck where
  name : String
  score : Int
  reason : String
deriving DecidableEq

/-- The decoded scorecard API JSON envelope (client.go lines 105-124);
date is the RFC3339 timestamp parsed to Unix seconds, none when parsing
fails (the time.Parse error branch). -/
structure ApiResponse where
  score : Int
  date : Option Int
  repoName : String
  repoCommit : String
  checks : List ApiCheck
deriving DecidableEq

/-- An HTTP response of the scorecard API: status, raw body, and the JSON
decode of the body (none = decode failure). -/
structure ScoreResponse where
  statusCode : Nat
  body : String
  decoded : Option ApiResponse
deriving DecidableEq

/-- Check (client.go lines 56-61). -/
structure Check where
  name : String
  score : Int
  status : String
  reason : String
deriving DecidableEq

/-- ScorecardData (client.go lines 40-53). -/
structure ScorecardData where
  score : Int
  checks : List Check
  timestamp : Int
  repository : String
  commit : String
deriving DecidableEq

/-- The per-check status derivation inlined in GetScorecardData
(client.go lines 146-151). -/
def deriveCheckStatus (score : Int) : String :=
  if 0 ≤ score ∧ score < 5 then "Fail"
  else if 5 ≤ score then "Pass"
  else "Unknown"

/-- GetScorecardData (client.go lines 75-162) as a function of the
received response; now models time.Now() for the timestamp fallback. -/
def GetScorecardData (vcsPath : String) (resp : ScoreResponse) (now : Int) :
    Except GoError ScorecardData :=
  if resp.statusCode = 404 then
    .error (.plain ("scorecard data not found for " ++ vcsPath))
  else if resp.statusCode ≠ 200 then
    .error (.plain ("API returned status " ++ toString resp.statusCode ++ ": " ++ resp.body))
  else
    match resp.decoded with
    | none => .error (.plain "failed to decode response")
    | some api =>
      .ok { score := api.score
            checks := api.checks.map (fun c =>
              { name := c.name
                score := c.score
                status := deriveCheckStatus c.score
                reason := c.reason })
            timestamp := match api.date with | some t => t | none => now
            repository := api.repoName
            commit := api.repoCommit }

/- ---------- the metrics Collector (part_001) ---------- -/

/-- Last-write-wins update of one gauge series: the Prometheus
GaugeVec.With(labels).Set(v). -/
def gaugeSet (g : List (List String × Int)) (key : List String) (v : Int) :
    List (List String × Int) :=
  (key, v) :: g.filter (fun p => !(p.1 == key))

/-- The metrics Collector (part_001 lines 33-51): four gauge vectors plus
the internal bookkeeping set registeredMetrics. -/
structure Collector where
  overallScore : List (List String × Int)
  checkScore : List (List String × Int)
  checkStatus : List (List String × Int)
  lastUpdate : List (List String × Int)
  registeredMetrics : List String
deriving DecidableEq

/-- A collector with no series written yet. -/
def emptyCollector : Collector := ⟨[], [], [], [], []⟩

/-- The status-to-gauge-value switch of UpdateMetrics
(part_001 lines 128-136). -/
def statusToValue (status : String) : Int :=
  if status == "Pass" then 1
  else if status == "Fail" then 0
  else -1

/-- UpdateMetrics (part_001 lines 103-146). -/
def UpdateMetrics (c : Collector) (configName organization repository : String)
    (data : ScorecardData) : Collector :=
  let labels := [configName, organization, repository]
  let c1 := { c with overallScore := gaugeSet c.overallScore labels data.score }
  let c2 := data.checks.foldl (fun acc check =>
    let checkLabels := [configName, organization, repository, check.name]
    { acc with
      checkScore := gaugeSet acc.checkScore checkLabels check.score
      checkStatus := gaugeSet acc.checkStatus checkLabels (statusToValue check.status) }) c1
  let c3 := { c2 with lastUpdate := gaugeSet c2.lastUpdate labels data.timestamp }
  let metricKey := configName ++ "/" ++ organization ++ "/" ++ repository
  { c3 with
    registeredMetrics :=
      if c3.registeredMetrics.contains metricKey then c3.registeredMetrics
      else metricKey :: c3.registeredMetrics }

/-- RemoveMetricsForConfig (part_001 lines 149-162): the loop deletes
every key of the bookkeeping map and touches nothing else. -/
def RemoveMetricsForConfig (c : Collector) (_configName : String) : Collector :=
  { c with registeredMetrics := [] }

/- ---------- internal/controller/configmap_controller.go ---------- -/

/-- isNotFoundError (configmap_controller.go lines 239-244). -/
def isNotFoundError : Option GoError → Bool
  | none => false
  | some err => strContains err.errMsg "scorecard data not found for"

/-- GetScorecardURL of the GitHub provider: host/org/repo. -/
def GetScorecardURL (scorecardURL organization repository : String) : String :=
  scorecardURL ++ "/" ++ organization ++ "/" ++ repository

/-- The sentinel ScorecardData the reconciler synthesizes for a
repository whose scorecard data is not found
(configmap_controller.go lines 193-198). -/
def sentinelScorecardData (repo : String) (now : Int) : ScorecardData :=
  { score := -1, repository := repo, timestamp := now, commit := "", checks := [] }

/-- The outcome of one reconciliation pass: a requeue after an explicit
delay with a nil error (ctrl.Result with RequeueAfter), a pass failure
(empty ctrl.Result plus a non-nil error), or normal completion (the
jittered requeue of utils.JitterRequeue, whose delay is out of scope of
the modeled claims). -/
inductive ReconcileOutcome where
  | requeueAfter (delay : Int)
  | failure (err : GoError)
  | completed
deriving DecidableEq

/-- The per-repository loop of Reconcile (configmap_controller.go lines
177-227): fetch maps a scorecard vcsPath to the outcome of
ScorecardClient.GetScorecardData for it; the loop threads the metrics
collector and stops with the first hard fetch error. -/
def processRepos (cfg org : String) (now : Int)
    (fetch : String → Except GoError ScorecardData) :
    Collector → List String → Collector × Option GoError
  | c, [] => (c, none)
  | c, repo :: rest =>
    match fetch (GetScorecardURL "github.com" org repo) with
    | .error e =>
      if isNotFoundError (some e) then
        processRepos cfg org now fetch
          (UpdateMetrics c cfg org repo (sentinelScorecardData repo now)) rest
      else (c, some e)
    | .ok data => processRepos cfg org now fetch (UpdateMetrics c cfg org repo data) rest

/-- Reconcile from the repository-listing step onward
(configmap_controller.go lines 153-235): listResult is the outcome of
provider.GetRepositories; a rate-limit listing error requeues after
GetRetryAfter, any other listing error fails the pass, and otherwise the
per-repository loop runs. -/
def reconcileFromListing (c : Collector) (cfg org : String) (now : Int)
    (listResult : Except GoError (List String))
    (fetch : String → Except GoError ScorecardData) : Collector × ReconcileOutcome :=
  match listResult with
  | .error e =>
    if IsRateLimitError (some e) then (c, .requeueAfter (GetRetryAfter now (some e)))
    else (c, .failure e)
  | .ok repos =>
    match processRepos cfg org now fetch c repos with
    | (c2, some e) => (c2, .failure e)
    | (c2, none) => (c2, .completed)

/- ---------- concrete inputs used by witnesses ---------- -/

/-- A 429 listing response carrying Retry-After: 120. -/
def resp429 : PageResponse :=
  { statusCode := 429
    body := "API rate limit exceeded"
    headers := [("Retry-After", "120")]
    decoded := none }

/-- A repository payload that passes the inclusion filter. -/
def includedRepoW : GitHubRepo :=
  { Name := "widgets"
    FullName := "acme/widgets"
    HTMLURL := "https://github.com/acme/widgets"
    Private := false
    Fork := false
    Archived := false
    Disabled := false
    DefaultBranch := "main" }

/-- A paged listing backend: 100 repositories on page 1, 40 on page 2. -/
def pagedFetchW : Nat → Except GoError (List GitHubRepo) :=
  fun page =>
    if page = 1 then .ok (List.replicate 100 includedRepoW)
    else if page = 2 then .ok (List.replicate 40 includedRepoW)
    else .error (.plain "page past the end was fetched")

/-- A concrete successful scorecard payload. -/
def scoreDataW : ScorecardData :=
  { score := 8
    checks := [{ name := "Maintained", score := 10, status := "Pass", reason := "ok" }]
    timestamp := 1700000000
    repository := "acme/alpha"
    commit := "abc" }

/-- A per-repository fetch backend: alpha succeeds, everything else is a
hard failure. -/
def fetchW : String → Except GoError ScorecardData :=
  fun path =>
    if path == "github.com/acme/alpha" then .ok scoreDataW
    else .error (.plain "boom")

/-- A concrete 200 scorecard API response with one check of score 3. -/
def scoreRespW : ScoreResponse :=
  { statusCode := 200
    body := "{}"
    decoded := some
      { score := 7
        date := some 1700000000
        repoName := "acme/widgets"
        repoCommit := "abc"
        checks := [{ name := "Fuzzing", score := 3, reason := "no fuzzing" }] } }

/-- The stored form of the single check of scoreRespW. -/
def checkW : Check :=
  { name := "Fuzzing", score := 3, status := "Fail", reason := "no fuzzing" }

/- ---------- helper lemmas ---------- -/

/-- Strings with equal character data are equal. -/
theorem str_eq_of_data_eq {a b : String} (h : a.data = b.data) : a = b := by
  cases a
  cases b
  exact congrArg String.mk h

/-- Lowering distributes over string append. -/
theorem lowerStr_append (a b : String) : lowerStr (a ++ b) = lowerStr a ++ lowerStr b := by
  apply str_eq_of_data_eq
  simp [lowerStr, String.data_append]

/-- A prefix occurrence is an occurrence. -/
theorem infixOf_of_isPrefixOf {pat l : List Char} (h : pat.isPrefixOf l = true) :
    infixOf pat l = true := by
  cases l with
  | nil => simpa [infixOf] using h
  | cons c cs => simp [infixOf, h]

/-- isPrefixOf is stable under extending the searched list on the right. -/
theorem isPrefixOf_append {pat a b : List Char} (h : pat.isPrefixOf a = true) :
    pat.isPrefixOf (a ++ b) = true := by
  rw [ List.isPrefixOf_iff_prefix] at h ⊢
  have hp := List.prefix_append a b
  exact h.trans hp

/-- An occurrence in a is an occurrence in a ++ b. -/
theorem infixOf_append_left {pat a b : List Char} (h : infixOf pat a = true) :
    infixOf pat (a ++ b) = true := by
  induction a with
  | nil =>
    cases pat with
    | nil => exact infixOf_of_isPrefixOf (by simp [List.isPrefixOf])
    | cons p ps => simp [infixOf, List.isPrefixOf] at h
  | cons c cs ih =>
    simp only [infixOf, Bool.or_eq_true] at h
    rcases h with h | h
    · exact infixOf_of_isPrefixOf (isPrefixOf_append h)
    · simp only [List.cons_append, infixOf, Bool.or_eq_true]
      exact Or.inr (ih h)

/-- Containment in a prefix gives containment in the whole string. -/
theorem strContains_append_left {a : String} (b : String) {pat : String}
    (h : strContains a pat = true) : strContains (a ++ b) pat = true := by
  unfold strContains at h ⊢
  rw [String.data_append]
  exact infixOf_append_left h

/- ---------- C4 ---------- -/

/-- C4: GetRetryAfter returns 0 for a nil error; for a typed rate-limit
error (possibly wrapped) it returns the explicit retryAfter when that is
positive, else resetTime - now when the reset time is strictly in the
future, else the 5-minute default; for every other non-nil error it
returns the 5-minute default; and it never returns a non-positive delay
for a non-nil error. -/
theorem getRetryAfter_spec (now : Int) :
    GetRetryAfter now none = 0
    ∧ (∀ err rle, asRateLimitError err = some rle →
        (0 < rle.retryAfter → GetRetryAfter now (some err) = rle.retryAfter)
        ∧ (rle.retryAfter ≤ 0 → ∀ reset, rle.resetTime = some reset → now < reset →
            GetRetryAfter now (some err) = reset - now)
        ∧ (rle.retryAfter ≤ 0 → rle.resetTime = none →
            GetRetryAfter now (some err) = fiveMinutes)
        ∧ (rle.retryAfter ≤ 0 → ∀ reset, rle.resetTime = some reset → reset ≤ now →
            GetRetryAfter now (some err) = fiveMinutes))
    ∧ (∀ err, asRateLimitError err = none → GetRetryAfter now (some err) = fiveMinutes)
    ∧ (∀ err, 0 < GetRetryAfter now (some err)) := by
  refine ⟨rfl, ?_, ?_, ?_⟩
  · intro err rle h
    refine ⟨?_, ?_, ?_, ?_⟩
    · intro hpos
      simp [GetRetryAfter, h, hpos]
    · intro hle reset hreset hfut
      have h1 : ¬ rle.retryAfter > 0 := by omega
      have h2 : reset - now > 0 := by omega
      simp [GetRetryAfter, h, hreset, h1, h2]
    · intro hle hnone
      have h1 : ¬ rle.retryAfter > 0 := by omega
      simp [GetRetryAfter, h, hnone, h1]
    · intro hle reset hreset hpast
      have h1 : ¬ rle.retryAfter > 0 := by omega
      have h2 : ¬ reset - now > 0 := by omega
      simp [GetRetryAfter, h, hreset, h1, h2]
  · intro err h
    simp [GetRetryAfter, h]
  · intro err
    cases hc : asRateLimitError err with
    | none => simp [GetRetryAfter, hc, fiveMinutes]
    | some rle =>
      simp only [GetRetryAfter, hc]
      split
      · omega
      · cases hr : rle.resetTime with
        | none => simp [fiveMinutes]
        | some reset =>
          simp only
          split
          · omega
          · simp [fiveMinutes]

/-- C4 witness: a typed rate-limit error with an explicit 600-second
retry delay yields exactly that delay. -/
theorem getRetryAfter_spec_witness :
    GetRetryAfter 0 (some (.rateLimit ((NewRateLimitError "github" "rate limit").WithRetryAfter 600)))
      = 600 := by
  have h := ((getRetryAfter_spec 0).2.1
    (.rateLimit ((NewRateLimitError "github" "rate limit").WithRetryAfter 600))
    ((NewRateLimitError "github" "rate limit").WithRetryAfter 600) rfl).1 (by decide)
  exact h

/- ---------- C5 ---------- -/

/-- C5: IsRateLimitError is false on nil, true on any error that is or
wraps the typed rate-limit error, and otherwise true exactly when the
lowercased message contains one of the fixed indicator substrings; in
particular plain "connection timeout" and "invalid credentials" errors
are not classified as rate limits while a message containing "429" or
"too many requests" is. -/
theorem isRateLimitError_spec :
    IsRateLimitError none = false
    ∧ (∀ err rle, asRateLimitError err = some rle → IsRateLimitError (some err) = true)
    ∧ (∀ err, asRateLimitError err = none →
        (IsRateLimitError (some err) = true ↔
          ∃ ind ∈ rateLimitIndicators, strContains (lowerStr err.errMsg) ind = true))
    ∧ IsRateLimitError (some (.plain "connection timeout")) = false
    ∧ IsRateLimitError (some (.plain "invalid credentials")) = false
    ∧ IsRateLimitError (some (.plain "API returned status 429: too many requests")) = true := by
  refine ⟨rfl, ?_, ?_, by decide, by decide, by decide⟩
  · intro err rle h
    simp [IsRateLimitError, h]
  · intro err h
    simp [IsRateLimitError, h, List.any_eq_true]

/-- C5 witness: an error wrapping the typed rate-limit error is
classified as a rate limit. -/
theorem isRateLimitError_spec_witness :
    IsRateLimitError (some (.wrap "API error"
      (.rateLimit (NewRateLimitError "github" "rate limit")))) = true := by
  exact isRateLimitError_spec.2.1
    (.wrap "API error" (.rateLimit (NewRateLimitError "github" "rate limit")))
    (NewRateLimitError "github" "rate limit") rfl

/- ---------- C10 ---------- -/

/-- C10: RemoveMetricsForConfig leaves every published gauge series
(overall score, per-check score, per-check status, last-update timestamp)
unchanged - it performs no deletion against the gauge backend and
mutates only the internal bookkeeping set. -/
theorem removeMetrics_preserves_gauges (c : Collector) (configName : String) :
    (RemoveMetricsForConfig c configName).overallScore = c.overallScore
    ∧ (RemoveMetricsForConfig c configName).checkScore = c.checkScore
    ∧ (RemoveMetricsForConfig c configName).checkStatus = c.checkStatus
    ∧ (RemoveMetricsForConfig c configName).lastUpdate = c.lastUpdate
    ∧ (RemoveMetricsForConfig c configName).registeredMetrics = [] :=
  ⟨rfl, rfl, rfl, rfl, rfl⟩

/- ---------- C9 ---------- -/

/-- C9: a decoded check's status is derived from its integer score - Fail
on [0,5), Pass on scores at least 5, Unknown for any other value
(negatives included) - and is never stored independently of the score in
a successful fetch result; the published per-check status value is 1 for
Pass, 0 for Fail and -1 otherwise. -/
theorem check_status_derivation :
    (∀ s : Int,
      (deriveCheckStatus s = "Fail" ↔ 0 ≤ s ∧ s < 5)
      ∧ (deriveCheckStatus s = "Pass" ↔ 5 ≤ s)
      ∧ (deriveCheckStatus s = "Unknown" ↔ s < 0))
    ∧ (∀ vcsPath resp now data, GetScorecardData vcsPath resp now = .ok data →
        ∀ check ∈ data.checks, check.status = deriveCheckStatus check.score)
    ∧ statusToValue "Pass" = 1
    ∧ statusToValue "Fail" = 0
    ∧ (∀ st, st ≠ "Pass" → st ≠ "Fail" → statusToValue st = -1)
    ∧ (∀ s : Int, statusToValue (deriveCheckStatus s) =
        if 5 ≤ s then 1 else if 0 ≤ s then 0 else -1) := by
  refine ⟨?_, ?_, by decide, by decide, ?_, ?_⟩
  · intro s
    unfold deriveCheckStatus
    by_cases h1 : 0 ≤ s ∧ s < 5
    · rw [if_pos h1]
      refine ⟨by simp [h1], ?_, ?_⟩
      · constructor
        · intro h
          exact absurd h (by decide)
        · intro h
          omega
      · constructor
        · intro h
          exact absurd h (by decide)
        · intro h
          omega
    · rw [if_neg h1]
      by_cases h2 : 5 ≤ s
      · rw [if_pos h2]
        refine ⟨?_, by simp [h2], ?_⟩
        · constructor
          · intro h
            exact absurd h (by decide)
          · intro h
            exact absurd h h1
        · constructor
          · intro h
            exact absurd h (by decide)
          · intro h
            omega
      · rw [if_neg h2]
        refine ⟨?_, ?_, ?_⟩
        · constructor
          · intro h
            exact absurd h (by decide)
          · intro h
            exact absurd h h1
        · constructor
          · intro h
            exact absurd h (by decide)
          · intro h
            exact absurd h h2
        · constructor
          · intro _
            omega
          · intro _
            rfl
  · intro vcsPath resp now data hok check hmem
    unfold GetScorecardData at hok
    split at hok
    · exact absurd hok (by simp)
    · split at hok
      · exact absurd hok (by simp)
      · cases hd : resp.decoded with
        | none =>
          rw [hd] at hok
          exact absurd hok (by simp)
        | some api =>
          rw [hd] at hok
          injection hok with h
          have hchecks : data.checks = api.checks.map (fun c =>
              ({ name := c.name, score := c.score, status := deriveCheckStatus c.score,
                 reason := c.reason } : Check)) := by rw [← h]
          rw [hchecks, List.mem_map] at hmem
          obtain ⟨c0, hc0, rfl⟩ := hmem
          rfl
  · intro st h1 h2
    simp [statusToValue, h1, h2]
  · intro s
    by_cases h1 : 0 ≤ s ∧ s < 5
    · have hd : deriveCheckStatus s = "Fail" := by rw [deriveCheckStatus, if_pos h1]
      rw [hd, if_neg (show ¬ 5 ≤ s by omega), if_pos h1.1]
      decide
    · by_cases h2 : 5 ≤ s
      · have hd : deriveCheckStatus s = "Pass" := by rw [deriveCheckStatus, if_neg h1, if_pos h2]
        rw [hd, if_pos h2]
        decide
      · have hd : deriveCheckStatus s = "Unknown" := by
          rw [deriveCheckStatus, if_neg h1, if_neg h2]
        rw [hd, if_neg h2, if_neg (show ¬ 0 ≤ s by omega)]
        decide

/-- C9 witness: in a decoded response a check of score 3 is stored with
the derived status Fail, and a score of 3 publishes status value 0. -/
theorem check_status_derivation_witness :
    statusToValue (deriveCheckStatus 3) = 0
    ∧ checkW.status = deriveCheckStatus checkW.score := by
  constructor
  · exact (check_status_derivation.2.2.2.2.2 3).trans (by decide)
  · exact check_status_derivation.2.1 "github.com/acme/widgets" scoreRespW 0 _ rfl _ (by decide)

/- ---------- C1 ---------- -/

/-- C1: when listing repositories fails with an error satisfying the
rate-limit predicate, the pass terminates without error and is requeued
after exactly the delay GetRetryAfter computes from that error; any other
listing error is returned as the pass failure. -/
theorem reconcile_listing_error_policy (c : Collector) (cfg org : String) (now : Int)
    (fetch : String → Except GoError ScorecardData) (e : GoError) :
    (IsRateLimitError (some e) = true →
      reconcileFromListing c cfg org now (.error e) fetch
        = (c, .requeueAfter (GetRetryAfter now (some e))))
    ∧ (IsRateLimitError (some e) = false →
      reconcileFromListing c cfg org now (.error e) fetch = (c, .failure e)) := by
  constructor
  · intro h
    simp [reconcileFromListing, h]
  · intro h
    simp [reconcileFromListing, h]

/-- C1 witness: a listing pass whose page fetch got HTTP 429 with
Retry-After: 120 terminates without error, requeued after 120 seconds. -/
theorem reconcile_listing_error_policy_witness :
    reconcileFromListing emptyCollector "ns/cfg" "acme" 0
      (GetRepositories (fun _ => fetchRepositoryPage resp429) 5) fetchW
      = (emptyCollector, .requeueAfter 120) := by
  have hlist : GetRepositories (fun _ => fetchRepositoryPage resp429) 5
      = .error (.rateLimit (buildRateLimitError resp429)) := rfl
  rw [hlist]
  exact ((reconcile_listing_error_policy emptyCollector "ns/cfg" "acme" 0 fetchW
    (.rateLimit (buildRateLimitError resp429))).1 (by decide)).trans (by decide)

/- ---------- C3 ---------- -/

/-- In the per-repository loop, while every repository of a prefix either
succeeds or hits not-found the loop threads the collector onward, and a
hard failure right after that prefix stops the loop with that error and
the collector reached so far. -/
theorem processRepos_hard_abort (cfg org : String) (now : Int)
    (fetch : String → Except GoError ScorecardData)
    (bad : String) (post : List String) (e : GoError)
    (hbad : fetch (GetScorecardURL "github.com" org bad) = .error e)
    (hnf : isNotFoundError (some e) = false) :
    ∀ (pre : List String) (c : Collector),
      (∀ r ∈ pre, (∃ d, fetch (GetScorecardURL "github.com" org r) = .ok d)
        ∨ (∃ e2, fetch (GetScorecardURL "github.com" org r) = .error e2
            ∧ isNotFoundError (some e2) = true)) →
      processRepos cfg org now fetch c (pre ++ bad :: post)
        = ((processRepos cfg org now fetch c pre).1, some e) := by
  intro pre
  induction pre with
  | nil =>
    intro c _
    simp [processRepos, hbad, hnf]
  | cons r rest ih =>
    intro c hpre
    have hr := hpre r (by simp)
    rcases hr with ⟨d, hd⟩ | ⟨e2, he2, hnf2⟩
    · simp only [List.cons_append, processRepos, hd]
      exact ih _ (fun x hx => hpre x (by simp [hx]))
    · simp only [List.cons_append, processRepos, he2, hnf2, if_true]
      exact ih _ (fun x hx => hpre x (by simp [hx]))

/-- C3: when some repository fetch fails with an error other than
not-found, none of the repositories after it are fetched or upserted (the
result does not depend on them), the pass result is that error, and the
collector keeps exactly the upserts of the repositories before it. -/
theorem pass_aborts_on_hard_fetch_failure (c : Collector) (cfg org : String) (now : Int)
    (fetch : String → Except GoError ScorecardData)
    (pre post : List String) (bad : String) (e : GoError)
    (hpre : ∀ r ∈ pre, (∃ d, fetch (GetScorecardURL "github.com" org r) = .ok d)
      ∨ (∃ e2, fetch (GetScorecardURL "github.com" org r) = .error e2
          ∧ isNotFoundError (some e2) = true))
    (hbad : fetch (GetScorecardURL "github.com" org bad) = .error e)
    (hnf : isNotFoundError (some e) = false) :
    reconcileFromListing c cfg org now (.ok (pre ++ bad :: post)) fetch
      = ((processRepos cfg org now fetch c pre).1, .failure e) := by
  have h := processRepos_hard_abort cfg org now fetch bad post e hbad hnf pre c hpre
  simp [reconcileFromListing, h]

/-- C3 witness: with repositories alpha, beta, gamma where beta fails
hard, the pass keeps alpha's upsert, never reaches gamma, and fails with
beta's error. -/
theorem pass_aborts_on_hard_fetch_failure_witness :
    reconcileFromListing emptyCollector "ns/cfg" "acme" 0
      (.ok ["alpha", "beta", "gamma"]) fetchW
      = (UpdateMetrics emptyCollector "ns/cfg" "acme" "alpha" scoreDataW,
         .failure (.plain "boom")) := by
  have hpre : ∀ r ∈ (["alpha"] : List String),
      (∃ d, fetchW (GetScorecardURL "github.com" "acme" r) = .ok d)
      ∨ (∃ e2, fetchW (GetScorecardURL "github.com" "acme" r) = .error e2
          ∧ isNotFoundError (some e2) = true) := by
    intro r hr
    rw [List.mem_singleton] at hr
    subst hr
    exact Or.inl ⟨scoreDataW, rfl⟩
  have h := pass_aborts_on_hard_fetch_failure emptyCollector "ns/cfg" "acme" 0 fetchW
    ["alpha"] ["gamma"] "beta" (.plain "boom") hpre rfl rfl
  exact h.trans (by decide)

/- ---------- C2 ---------- -/

/-- C2 counterexample: the not-found outcome is not distinguishable from
every other non-2xx outcome: a 500 response whose body contains the
marker phrase yields a non-404 error that isNotFoundError also
classifies as not-found. -/
theorem scorecard_notFound_ambiguity_cex :
    GetScorecardData "github.com/acme/widgets"
        { statusCode := 500, body := "scorecard data not found for acme", decoded := none } 0
      = .error (.plain "API returned status 500: scorecard data not found for acme")
    ∧ (500 : Nat) ≠ 404
    ∧ isNotFoundError
        (some (.plain "API returned status 500: scorecard data not found for acme")) = true :=
  ⟨rfl, by decide, by decide⟩

/-- C2 (amended): a 404 score fetch yields the marker not-found error,
which isNotFoundError recognizes; other non-2xx outcomes are recognized
as not-found only when their body leaks the marker phrase (ordinary
bodies are not recognized); on a recognized not-found outcome the
reconciler upserts the sentinel result with overall score -1 and an empty
check list for that repository and continues with the remaining
repositories without failing the pass. -/
theorem scorecard_notFound_handling :
    (∀ vcsPath resp now, resp.statusCode = 404 →
      GetScorecardData vcsPath resp now
        = .error (.plain ("scorecard data not found for " ++ vcsPath))
      ∧ isNotFoundError (some (.plain ("scorecard data not found for " ++ vcsPath))) = true)
    ∧ isNotFoundError (some (.plain "API returned status 500: internal error")) = false
    ∧ isNotFoundError (some (.plain "API returned status 403: forbidden")) = false
    ∧ (∀ cfg org now fetch c repo rest e,
        fetch (GetScorecardURL "github.com" org repo) = .error e →
        isNotFoundError (some e) = true →
        processRepos cfg org now fetch c (repo :: rest)
          = processRepos cfg org now fetch
              (UpdateMetrics c cfg org repo (sentinelScorecardData repo now)) rest)
    ∧ (∀ repo now, (sentinelScorecardData repo now).score = -1
        ∧ (sentinelScorecardData repo now).checks = []) := by
  refine ⟨?_, by decide, by decide, ?_, ?_⟩
  · intro vcsPath resp now h404
    constructor
    · unfold GetScorecardData
      rw [if_pos h404]
    · show strContains ("scorecard data not found for " ++ vcsPath)
        "scorecard data not found for" = true
      exact strContains_append_left vcsPath (by decide)
  · intro cfg org now fetch c repo rest e hf hnf
    simp [processRepos, hf, hnf]
  · intro repo now
    exact ⟨rfl, rfl⟩

/-- C2 witness: a 404 for acme/widgets yields the recognized not-found
error whose message carries the marker phrase. -/
theorem scorecard_notFound_handling_witness :
    GetScorecardData "github.com/acme/widgets"
        { statusCode := 404, body := "", decoded := none } 0
      = .error (.plain "scorecard data not found for github.com/acme/widgets") := by
  have h := (scorecard_notFound_handling.1 "github.com/acme/widgets"
    { statusCode := 404, body := "", decoded := none } 0 rfl).1
  exact h.trans rfl

/- ---------- C6 ---------- -/

/-- C6: GetRepositories fetches successive pages of size 100 and stops
exactly when a page returns fewer items than the page size or zero items:
a full page of 100 followed by a page of 40 yields all 140 items (here
all pass the filter) and no later page is consulted (the backend is
arbitrary beyond page 2); a first page of 0 items yields the empty
result. -/
theorem getRepositories_pagination :
    (∀ (fetchPage : Nat → Except GoError (List GitHubRepo)) (fuel : Nat)
        (p1 p2 : List GitHubRepo),
      2 ≤ fuel →
      fetchPage 1 = .ok p1 → p1.length = 100 →
      fetchPage 2 = .ok p2 → p2.length = 40 →
      (∀ repo ∈ p1 ++ p2, shouldIncludeRepository repo = true) →
      GetRepositories fetchPage fuel = .ok ((p1 ++ p2).map GitHubRepo.Name))
    ∧ (∀ (fetchPage : Nat → Except GoError (List GitHubRepo)) (fuel : Nat),
      1 ≤ fuel → fetchPage 1 = .ok [] →
      GetRepositories fetchPage fuel = .ok []) := by
  constructor
  · intro fetchPage fuel p1 p2 hfuel h1 hlen1 h2 hlen2 hinc
    obtain ⟨f, rfl⟩ : ∃ f, fuel = f + 1 + 1 := ⟨fuel - 2, by omega⟩
    have hf1 : p1.filter shouldIncludeRepository = p1 :=
      List.filter_eq_self.mpr (fun a ha => hinc a (by simp [ha]))
    have hf2 : p2.filter shouldIncludeRepository = p2 :=
      List.filter_eq_self.mpr (fun a ha => hinc a (by simp [ha]))
    simp [GetRepositories, getRepositoriesLoop, h1, h2, hlen1, hlen2, hf1, hf2]
  · intro fetchPage fuel hfuel h1
    obtain ⟨f, rfl⟩ : ∃ f, fuel = f + 1 := ⟨fuel - 1, by omega⟩
    simp [GetRepositories, getRepositoriesLoop, h1]

/-- C6 witness: a backend with 100 repositories on page 1 and 40 on page
2 yields exactly the 140 names and stops. -/
theorem getRepositories_pagination_witness :
    GetRepositories pagedFetchW 10 = .ok (List.replicate 140 "widgets") := by
  have hinc : ∀ repo ∈ List.replicate 100 includedRepoW ++ List.replicate 40 includedRepoW,
      shouldIncludeRepository repo = true := by
    intro r hr
    have : r = includedRepoW := by
      simpa [List.mem_replicate] using hr
    subst this
    decide
  have h := getRepositories_pagination.1 pagedFetchW 10
    (List.replicate 100 includedRepoW) (List.replicate 40 includedRepoW)
    (by omega) rfl (by simp) rfl (by simp) hinc
  exact h.trans rfl

/- ---------- C7 ---------- -/

/-- When the Retry-After header parses, the built error carries exactly
that retry delay. -/
theorem buildRateLimitError_retryAfter (resp : PageResponse) (n : Int)
    (hn : atoi? (headerGet resp.headers "Retry-After") = some n) :
    (buildRateLimitError resp).retryAfter = n := by
  unfold buildRateLimitError
  simp only [hn]
  have hne : ¬ headerGet resp.headers "Retry-After" = "" := by
    intro h
    rw [h, show atoi? "" = none from rfl] at hn
    exact Option.noConfusion hn
  rw [if_neg hne]
  split
  · rfl
  · split
    · rfl
    · rfl

/-- When the X-RateLimit-Reset header parses, the built error carries
exactly that reset time. -/
theorem buildRateLimitError_resetTime (resp : PageResponse) (t : Int)
    (ht : atoi? (headerGet resp.headers "X-RateLimit-Reset") = some t) :
    (buildRateLimitError resp).resetTime = some t := by
  unfold buildRateLimitError
  simp only [ht]
  have hne : ¬ headerGet resp.headers "X-RateLimit-Reset" = "" := by
    intro h
    rw [h, show atoi? "" = none from rfl] at ht
    exact Option.noConfusion ht
  rw [if_neg hne]
  split
  · split
    · rfl
    · split
      · rfl
      · rfl
  · split
    · split
      · rfl
      · split
        · rfl
        · rfl
    · split
      · rfl
      · split
        · rfl
        · rfl

/-- When the X-RateLimit-Limit header parses, the built error carries that
limit together with the best-effort parse of X-RateLimit-Remaining. -/
theorem buildRateLimitError_limit (resp : PageResponse) (l : Int)
    (hl : atoi? (headerGet resp.headers "X-RateLimit-Limit") = some l) :
    (buildRateLimitError resp).limit = l
    ∧ (buildRateLimitError resp).remaining
        = atoiOrZero (headerGet resp.headers "X-RateLimit-Remaining") := by
  unfold buildRateLimitError
  simp only [hl]
  have hne : ¬ headerGet resp.headers "X-RateLimit-Limit" = "" := by
    intro h
    rw [h, show atoi? "" = none from rfl] at hl
    exact Option.noConfusion hl
  rw [if_neg hne]
  constructor
  · split
    · split
      · rfl
      · split
        · rfl
        · rfl
    · split
      · split
        · rfl
        · split
          · rfl
          · rfl
      · split
        · rfl
        · split
          · rfl
          · rfl
  · split
    · split
      · rfl
      · split
        · rfl
        · rfl
    · split
      · split
        · rfl
        · split
          · rfl
          · rfl
      · split
        · rfl
        · split
          · rfl
          · rfl

/-- When all three rate-limit headers are absent, construction still
succeeds with the plain defaults. -/
theorem buildRateLimitError_default (resp : PageResponse)
    (h1 : headerGet resp.headers "X-RateLimit-Limit" = "")
    (h2 : headerGet resp.headers "X-RateLimit-Reset" = "")
    (h3 : headerGet resp.headers "Retry-After" = "") :
    buildRateLimitError resp = NewRateLimitError "github" resp.body := by
  simp [buildRateLimitError, h1, h2, h3]

/-- C7: a page fetch seeing HTTP 403 or 429 returns the typed rate-limit
error built from the response, that error satisfies the rate-limit
predicate, it carries whatever retry-after, reset and limit/remaining
metadata the headers provide, and absence of all of those headers still
constructs the error; equally, the typed library rate-limit errors mapped
by handleError satisfy the predicate and carry the library's metadata. -/
theorem fetchPage_rate_limit_classification :
    (∀ resp : PageResponse, resp.statusCode = 403 ∨ resp.statusCode = 429 →
      fetchRepositoryPage resp = .error (.rateLimit (buildRateLimitError resp))
      ∧ IsRateLimitError (some (.rateLimit (buildRateLimitError resp))) = true
      ∧ (∀ n, atoi? (headerGet resp.headers "Retry-After") = some n →
          (buildRateLimitError resp).retryAfter = n)
      ∧ (∀ t, atoi? (headerGet resp.headers "X-RateLimit-Reset") = some t →
          (buildRateLimitError resp).resetTime = some t)
      ∧ (∀ l, atoi? (headerGet resp.headers "X-RateLimit-Limit") = some l →
          (buildRateLimitError resp).limit = l
          ∧ (buildRateLimitError resp).remaining
              = atoiOrZero (headerGet resp.headers "X-RateLimit-Remaining"))
      ∧ (headerGet resp.headers "X-RateLimit-Limit" = "" →
         headerGet resp.headers "X-RateLimit-Reset" = "" →
         headerGet resp.headers "Retry-After" = "" →
         buildRateLimitError resp = NewRateLimitError "github" resp.body))
    ∧ (∀ msg l r reset, handleError (some (.rateLimitErr msg l r reset))
        = some (.rateLimit
            (((NewRateLimitError "github" msg).WithRateLimitInfo l r).WithResetTime reset))
      ∧ IsRateLimitError (handleError (some (.rateLimitErr msg l r reset))) = true)
    ∧ (∀ msg d, handleError (some (.abuseRateLimitErr msg (some d)))
        = some (.rateLimit ((NewRateLimitError "github" msg).WithRetryAfter d))
      ∧ IsRateLimitError (handleError (some (.abuseRateLimitErr msg (some d)))) = true)
    ∧ (∀ msg, IsRateLimitError (handleError (some (.abuseRateLimitErr msg none))) = true) := by
  refine ⟨?_, ?_, ?_, ?_⟩
  · intro resp hst
    refine ⟨?_, rfl, ?_, ?_, ?_, ?_⟩
    · unfold fetchRepositoryPage
      rw [if_pos hst]
    · intro n hn
      exact buildRateLimitError_retryAfter resp n hn
    · intro t ht
      exact buildRateLimitError_resetTime resp t ht
    · intro l hl
      exact buildRateLimitError_limit resp l hl
    · intro h1 h2 h3
      exact buildRateLimitError_default resp h1 h2 h3
  · intro msg l r reset
    exact ⟨rfl, rfl⟩
  · intro msg d
    exact ⟨rfl, rfl⟩
  · intro msg
    rfl

/-- C7 witness: the 429 response with Retry-After: 120 yields the typed
rate-limit error with retryAfter 120 and is classified as a rate limit. -/
theorem fetchPage_rate_limit_classification_witness :
    fetchRepositoryPage resp429 = .error (.rateLimit (buildRateLimitError resp429))
    ∧ IsRateLimitError (some (.rateLimit (buildRateLimitError resp429))) = true
    ∧ (buildRateLimitError resp429).retryAfter = 120 := by
  have h := fetchPage_rate_limit_classification.1 resp429 (Or.inr rfl)
  exact ⟨h.1, h.2.1, h.2.2.1 120 rfl⟩

/- ---------- C8 ---------- -/

/-- C8 counterexample: a 403 single-repository response with an
indicator-free body yields a plain error that does not satisfy the
rate-limit predicate and carries no rate-limit metadata. -/
theorem repoDetails_403_unclassified_cex :
    GetRepositoryDetails { statusCode := 403, body := "", decoded := none }
      = .error (.plain "GitHub API returned status 403: ")
    ∧ IsRateLimitError (some (.plain "GitHub API returned status 403: ")) = false :=
  ⟨rfl, by decide⟩

/-- C8 (amended): GetRepositoryDetails never constructs a typed
rate-limit error - every error it returns is untyped, carrying no
rate-limit metadata; an HTTP 429 nevertheless satisfies the rate-limit
predicate because its message contains 429, while an HTTP 403 with an
indicator-free body does not; the typed-client variant's handleError does
classify the library's typed rate-limit errors (see the C7 theorem). -/
theorem repoDetails_error_classification :
    (∀ resp : RepoResponse, resp.statusCode = 429 →
      GetRepositoryDetails resp
        = .error (.plain ("GitHub API returned status 429: " ++ resp.body))
      ∧ IsRateLimitError
          (some (.plain ("GitHub API returned status 429: " ++ resp.body))) = true)
    ∧ (∀ resp e, GetRepositoryDetails resp = .error e → asRateLimitError e = none)
    ∧ IsRateLimitError (some (.plain "GitHub API returned status 403: ")) = false := by
  refine ⟨?_, ?_, by decide⟩
  · intro resp h429
    constructor
    · unfold GetRepositoryDetails
      rw [h429]
      rfl
    · simp only [IsRateLimitError, asRateLimitError, GoError.errMsg]
      refine List.any_eq_true.mpr ⟨"429", by decide, ?_⟩
      rw [lowerStr_append]
      exact strContains_append_left (lowerStr resp.body) (by decide)
  · intro resp e h
    unfold GetRepositoryDetails at h
    split at h
    · injection h with h2
      subst h2
      rfl
    · cases hd : resp.decoded with
      | some gh =>
        rw [hd] at h
        exact Except.noConfusion h
      | none =>
        rw [hd] at h
        injection h with h2
        subst h2
        rfl

/-- C8 witness: a concrete 429 details response is recognized by the
rate-limit predicate through its message. -/
theorem repoDetails_error_classification_witness :
    IsRateLimitError (some (.plain "GitHub API returned status 429: slow down")) = true := by
  have h := (repoDetails_error_classification.1
    { statusCode := 429, body := "slow down", decoded := none } rfl).2
  exact h
